import Mathlib

/-!
Verification of the change-detection and deduplication pipeline of the
swnewsapp news monitor.

The program scrapes news-listing pages, compares the extracted article
batch against a per-category cache of previously seen articles, notifies a
chat channel about the new ones and commits the batch to the cache with a
retention cap.  The definitions below are shallow embeddings of the
relevant JavaScript functions:

* `detect`, `commitCategory`, `checkCategory` — the per-category body of
  `checkForNewArticles` in `src/index.js` (lines 186-207): the cached-url
  filter (line 192), the cache commit `[...newArticles, ...old].slice(0, 100)`
  (line 200), and the control flow around the notification call (which
  throws on failure and is caught at line 205, skipping the commit).
* `scrapeEvalStep` / `scrapeEval` — the in-page extraction loop of
  `scrapeArticles` in `src/index.js` (lines 95-136), including the
  `seenUrls` within-batch dedup set and the title/url validation.
* `commitCategoryMem` — the in-memory variant's commit
  `[...updates, ...old].slice(0, 50)` (`src/unnamed/part_001`, line 199).
* `checkUpdates` — the webhook variant's `checkUpdates`
  (`src/unnamed/part_002`, lines 85-95), which keys items by
  `` `${title}-${date}` `` and adds the key before dispatching the
  notification.
* `processCats` — the single-page variants' per-category loop with
  substring category matching (`src/unnamed/part_003` lines 139-167,
  `src/unnamed/part_004` lines 188-216).
* `postArticleStep` / `postTitles` — the webhook variants' `previousTitles`
  bookkeeping in `postNews` (`src/unnamed/part_000` lines 112-119,
  `src/unnamed/part_006` lines 156-163).
-/

namespace SWNews

/-- List-of-characters test that `p` is an initial segment of `l`
(the JavaScript `String.prototype.startsWith`). -/
def startsWithL : List Char → List Char → Bool
  | [], _ => true
  | _ :: _, [] => false
  | a :: as, b :: bs => a == b && startsWithL as bs

/-- List-of-characters substring test (the JavaScript
`String.prototype.includes`). -/
def substrL (needle : List Char) : List Char → Bool
  | [] => needle.isEmpty
  | c :: rest => startsWithL needle (c :: rest) || substrL needle rest

/-- String substring test: `strContains needle hay` is
`hay.includes(needle)` in the JavaScript source. -/
def strContains (needle hay : String) : Bool :=
  substrL needle.data hay.data

/-- An article record as produced by the extraction step:
`{title, url, date, categories}` in the JavaScript sources. -/
structure Article where
  title : String
  url : String
  date : String
  categories : List String
deriving DecidableEq

/-- The url set of the per-category cache:
`new Set((cache.categories[category] || []).map(article => article.url))`
(`src/index.js` line 189). -/
def cachedUrls (cached : List Article) : List String :=
  cached.map (fun a => a.url)

/-- The detect step:
`newArticles.filter(article => !cachedUrls.has(article.url))`
(`src/index.js` line 192). -/
def detect (cached batch : List Article) : List Article :=
  batch.filter (fun a => !((cachedUrls cached).contains a.url))

/-- The cache commit of `src/index.js` line 200:
`[...newArticles, ...(cache.categories[category] || [])].slice(0, 100)`.
The whole scraped batch is prepended, then the first 100 entries are kept. -/
def commitCategory (scraped cached : List Article) : List Article :=
  (scraped ++ cached).take 100

/-- The cache commit of the in-memory variant (`src/unnamed/part_001`,
line 199): `[...updates, ...(cache.categories[category] || [])].slice(0, 50)`.
Only the genuinely new items are prepended, and the cap is 50. -/
def commitCategoryMem (updates cached : List Article) : List Article :=
  (updates ++ cached).take 50

/-- One category's pass of `checkForNewArticles` in `src/index.js`
(lines 186-207), with the retention cap as a parameter (the source
hard-codes the literal `100` at line 200).  Returns the detected updates
and the resulting cache list for the category.  `notifyOk` models whether
`sendDiscordNotification` completed without throwing: on failure it throws
(line 177), the per-category `catch` at line 205 fires, and the commit at
lines 200-201 is skipped, leaving the cache unchanged. -/
def checkCategoryWith (cap : Nat) (cached scraped : List Article)
    (notifyOk : Bool) : List Article × List Article :=
  let updates := detect cached scraped
  if updates.isEmpty then (updates, cached)
  else if notifyOk then (updates, (scraped ++ cached).take cap)
  else (updates, cached)

/-- One category's pass of `checkForNewArticles` in `src/index.js` with the
source's literal cap of 100. -/
def checkCategory (cached scraped : List Article) (notifyOk : Bool) :
    List Article × List Article :=
  checkCategoryWith 100 cached scraped notifyOk

/-- The detect step viewed as a state transformer on the cache: it reads
the cache (line 189) and filters the batch (line 192) but performs no
write to `cache.categories` — the commit is a separate step at line 200. -/
def detectStep (cached batch : List Article) : List Article × List Article :=
  (detect cached batch, cached)

/-- A raw per-element record as computed inside the `page.evaluate`
callback of `scrapeArticles` (`src/index.js` lines 100-111) before
validation: the trimmed title text, the raw `href` attribute, the computed
date string, and the trimmed category labels. -/
structure RawItem where
  title : String
  href : String
  date : String
  categories : List String
deriving DecidableEq

/-- Url absolutization of `src/index.js` lines 107-109:
the site origin is prepended to a non-empty relative url. -/
def absolutizeUrl (u : String) : String :=
  if !u.isEmpty && !(startsWithL "http".data u.data) then
    "https://www.starwarsnewsnet.com" ++
      (if startsWithL "/".data u.data then u else "/" ++ u)
  else u

/-- The title regex `/^\d{4}-\d{2}-\d{2}$/` of `src/index.js` line 119. -/
def isIsoDateTitle (s : String) : Bool :=
  match s.data with
  | [y1, y2, y3, y4, '-', m1, m2, '-', d1, d2] =>
    y1.isDigit && y2.isDigit && y3.isDigit && y4.isDigit &&
    m1.isDigit && m2.isDigit && d1.isDigit && d2.isDigit
  | _ => false

/-- The month alternation of the title regex at `src/index.js` line 120. -/
def monthNames : List String :=
  ["January", "February", "March", "April", "May", "June", "July",
   "August", "September", "October", "November", "December"]

/-- Characters matched by the JavaScript regex class `\s` (ASCII part). -/
def isWsChar (c : Char) : Bool :=
  c == ' ' || c == '\t' || c == '\n' || c == '\r' || c == '\x0b' || c == '\x0c'

/-- Consume `\s+`: at least one whitespace character, greedily. -/
def dropWs1 : List Char → Option (List Char)
  | [] => none
  | c :: rest => if isWsChar c then some (rest.dropWhile isWsChar) else none

/-- The tail `\s+\d{1,2},\s+\d{4}$` of the title regex at
`src/index.js` line 120, applied after a month name. -/
def longDateTail (cs : List Char) : Bool :=
  match dropWs1 cs with
  | none => false
  | some cs1 =>
    let ds := cs1.takeWhile Char.isDigit
    let rest := cs1.dropWhile Char.isDigit
    (ds.length == 1 || ds.length == 2) &&
      (match rest with
       | ',' :: r2 =>
         (match dropWs1 r2 with
          | none => false
          | some r3 =>
            (r3.takeWhile Char.isDigit).length == 4 &&
              (r3.dropWhile Char.isDigit).isEmpty)
       | _ => false)

/-- The title regex
`/^(January|...|December)\s+\d{1,2},\s+\d{4}$/` of `src/index.js` line 120. -/
def isLongDateTitle (s : String) : Bool :=
  monthNames.any (fun m =>
    startsWithL m.data s.data && longDateTail (s.data.drop m.data.length))

/-- The article validation of `src/index.js` lines 114-121: non-empty
title and url, url not already collected in this batch (`seenUrls`), title
is not a read-more link or a bare date, and the url belongs to the site. -/
def validTitleUrl (seen : List String) (title url : String) : Bool :=
  !title.isEmpty && !url.isEmpty && !(seen.contains url) &&
  !(strContains "read more" title.toLower) &&
  !(isIsoDateTitle title) && !(isLongDateTitle title) &&
  strContains "starwarsnewsnet.com" url

/-- One iteration of the extraction loop of `scrapeArticles`
(`src/index.js` lines 100-132): state is the `seenUrls` set and the
`results` array; a valid unseen element adds its url to `seenUrls` and
pushes the article (with `['Uncategorized']` standing in for an empty
category list, line 128). -/
def scrapeEvalStep (st : List String × List Article) (el : RawItem) :
    List String × List Article :=
  let url := absolutizeUrl el.href
  if validTitleUrl st.1 el.title url then
    (url :: st.1,
     st.2 ++ [{ title := el.title, url := url, date := el.date,
                categories := if el.categories.isEmpty then ["Uncategorized"]
                              else el.categories }])
  else st

/-- The whole extraction loop of `scrapeArticles` (`src/index.js`
lines 95-136): fold the per-element step over the candidate elements,
starting from an empty `seenUrls` set and an empty `results` array. -/
def scrapeEval (elems : List RawItem) : List Article :=
  (elems.foldl scrapeEvalStep ([], [])).2

/-- A news record of the webhook variant (`src/unnamed/part_002`):
`{title, link, date}`. -/
structure NewsItem where
  title : String
  link : String
  date : String
deriving DecidableEq

/-- The dedup key of the webhook variant:
`` const key = `${article.title}-${article.date}` ``
(`src/unnamed/part_002` line 89). -/
def newsKey (a : NewsItem) : String :=
  a.title ++ "-" ++ a.date

/-- One iteration of `checkUpdates` (`src/unnamed/part_002` lines 88-94):
if the key is unseen, it is added to `lastNews` and the notification is
dispatched (fire-and-forget, before any delivery outcome is known).  The
state is the seen-key set together with the list of dispatched items. -/
def checkUpdatesStep (st : List String × List NewsItem) (a : NewsItem) :
    List String × List NewsItem :=
  if st.1.contains (newsKey a) then st
  else (st.1 ++ [newsKey a], st.2 ++ [a])

/-- The `checkUpdates` loop of `src/unnamed/part_002` (lines 85-95) over a
scraped batch, starting from the persisted `lastNews` set. -/
def checkUpdates (lastNews : List String) (arts : List NewsItem) :
    List String × List NewsItem :=
  arts.foldl checkUpdatesStep (lastNews, [])

/-- Truncate a character list at the first `c` (exclusive). -/
def dropFromChar (c : Char) : List Char → List Char
  | [] => []
  | x :: xs => if x == c then [] else x :: dropFromChar c xs

/-- Lower-case characters up to the first `/` (the end of a url's host). -/
def lowerHost : List Char → List Char
  | [] => []
  | c :: rest => if c == '/' then c :: rest else c.toLower :: lowerHost rest

/-- Lower-case a url's scheme and, after the `://` separator, its host. -/
def lowerSchemeHost : List Char → List Char
  | [] => []
  | ':' :: '/' :: '/' :: rest => ':' :: '/' :: '/' :: lowerHost rest
  | c :: rest => c.toLower :: lowerSchemeHost rest

/-- Remove a trailing `/` if present. -/
def stripTrailingSlash (l : List Char) : List Char :=
  if l.getLast? == some '/' then l.dropLast else l

/-- Modelled from the spec: `normalize(url)` of §4.2 — strip tracking
parameters (modelled as dropping the query string), enforce scheme/host
casing (lower-case them), and strip a trailing slash.  No counterpart
exists in the source: the code compares raw url strings. -/
def normalizeSpec (u : String) : String :=
  String.mk (stripTrailingSlash (lowerSchemeHost (dropFromChar '?' u.data)))

/-- Category assignment of the single-page variants:
`article.categories.some(cat => cat.toLowerCase().includes(category.toLowerCase()))`
(`src/unnamed/part_003` line 150, `src/unnamed/part_004` line 199). -/
def matchesCategory (a : Article) (c : String) : Bool :=
  a.categories.any (fun lbl => strContains c.toLower lbl.toLower)

/-- The per-category filter of the single-page variants
(`src/unnamed/part_003` lines 148-152, `src/unnamed/part_004`
lines 197-201): label substring-match plus the cached-url exclusion. -/
def newForCategory (c : String) (cachedArts arts : List Article) :
    List Article :=
  arts.filter (fun a =>
    matchesCategory a c &&
    !((cachedArts.map (fun x => x.url)).contains a.url))

/-- Whether article `a` is emitted under category `c` for cache state
`cacheF`: the condition of `newForCategory` evaluated at `a`. -/
def hitCategory (cacheF : String → List Article) (a : Article) (c : String) :
    Bool :=
  matchesCategory a c &&
  !(((cacheF c).map (fun x => x.url)).contains a.url)

/-- The cache write of one category's pass in the single-page variants
(`src/unnamed/part_003` line 157, `src/unnamed/part_004` line 206):
`cache.categories[category] = [...newArticles, ...old].slice(0, 50)`,
performed only when `newArticles` is non-empty and touching only that
category's key. -/
def nextCache (c : String) (cacheF : String → List Article)
    (upd : List Article) : String → List Article :=
  if upd.isEmpty then cacheF
  else fun c2 => if c2 = c then (upd ++ cacheF c).take 50 else cacheF c2

/-- The per-category loop of `checkForNewArticles` in the single-page
variants (`src/unnamed/part_003` lines 146-163, `src/unnamed/part_004`
lines 195-212): for each category in order, filter the one scraped batch,
send one notification per kept article, and on a non-empty result commit
`[...newArticles, ...old].slice(0, 50)` for that category only.  Returns
the list of dispatched `(category, article)` notifications and the final
per-category cache. -/
def processCats : List String → (String → List Article) → List Article →
    List (String × Article) × (String → List Article)
  | [], cacheF, _ => ([], cacheF)
  | c :: rest, cacheF, arts =>
    let upd := newForCategory c (cacheF c) arts
    let r := processCats rest (nextCache c cacheF upd) arts
    (upd.map (fun a => (c, a)) ++ r.1, r.2)

/-- `previousTitles.add(article.title)` of the webhook variants
(`src/unnamed/part_000` line 113, `src/unnamed/part_006` line 157),
modelled on an insertion-ordered duplicate-free list as a JavaScript `Set`
is: adding a present element changes nothing. -/
def addTitle (s : List String) (t : String) : List String :=
  if s.contains t then s else s ++ [t]

/-- The trim of `src/unnamed/part_000` lines 116-119 (`src/unnamed/part_006`
lines 160-163): when the set exceeds 50 entries, keep only the last
50 in insertion order (`Array.from(previousTitles).slice(-50)`). -/
def trimTitles (s : List String) : List String :=
  if s.length > 50 then s.drop (s.length - 50) else s

/-- Processing of one posted article in `postNews`
(`src/unnamed/part_000` lines 112-119): add the title, then trim. -/
def postArticleStep (s : List String) (t : String) : List String :=
  trimTitles (addTitle s t)

/-- Processing of a whole posted batch in `postNews`: fold the per-article
step over the article titles. -/
def postTitles (s : List String) (ts : List String) : List String :=
  ts.foldl postArticleStep s

/-- Sample article whose url has no trailing slash. -/
def artX : Article :=
  { title := "X", url := "https://www.starwarsnewsnet.com/x",
    date := "2025-05-05", categories := [] }

/-- Sample article identical to `artX` except for a trailing slash on the
url. -/
def artXs : Article :=
  { title := "X", url := "https://www.starwarsnewsnet.com/x/",
    date := "2025-05-05", categories := [] }

/-- Sample news item of the webhook variant. -/
def itemN1 : NewsItem := { title := "T", link := "l1", date := "D1" }

/-- Sample news item sharing title and date with `itemN1` but with a
different link. -/
def itemN2 : NewsItem := { title := "T", link := "l2", date := "D1" }

/-- Sample news item sharing the title of `itemN1` but with a different
date. -/
def itemN3 : NewsItem := { title := "T", link := "l3", date := "D2" }

/-- Sample article whose single label substring-matches the two tracked
categories `films` and `series`. -/
def artFS : Article :=
  { title := "FS", url := "u9", date := "2025-05-06",
    categories := ["films-series"] }

/-- Sample long-lived article with url `u0`: first seen in cycle 1 and
still present on the page in every later scrape. -/
def artO : Article :=
  { title := "O", url := "u0", date := "2025-04-01", categories := [] }

/-- Sample article with url `uN`: first seen in cycle 2, absent from the
page afterwards. -/
def artN : Article :=
  { title := "N", url := "uN", date := "2025-04-02", categories := [] }

/-- Sample fresh article number `i`, with a url distinct from every other
index's. -/
def padArticle (i : Nat) : Article :=
  { title := "P", url := "p" ++ String.mk (List.replicate i 'x'),
    date := "2025-04-03", categories := [] }

/-- Ninety-nine fresh articles, scraped for the first time in cycle 3. -/
def padArticles : List Article :=
  (List.range 99).map padArticle

/-- Sample article with url `u1`, used as concrete test data. -/
def artA : Article :=
  { title := "A", url := "u1", date := "2025-05-01", categories := ["star-wars"] }

/-- Sample article with url `u2`. -/
def artB : Article :=
  { title := "B", url := "u2", date := "2025-05-02", categories := ["movies"] }

/-- Sample article with url `u3`. -/
def artC : Article :=
  { title := "C", url := "u3", date := "2025-05-03", categories := ["tv"] }

/-- Sample article with url `u4`. -/
def artD : Article :=
  { title := "D", url := "u4", date := "2025-05-04", categories := ["games"] }

end SWNews

namespace SWNews

theorem mem_detect_iff (cached batch : List Article) (x : Article) :
    x ∈ detect cached batch ↔ x ∈ batch ∧ x.url ∉ cachedUrls cached := by
  simp [detect, List.mem_filter, List.contains, List.elem_iff]

/-- C1 — No re-announcement: once a url is present in the per-category
cache (`cache.categories[sourceKey]`), every item of any batch carrying
that same url is excluded from the output of the detect filter of
`checkForNewArticles` (`src/index.js` lines 189-192): no article in the
update list has a cached url. -/
theorem spec_c1_no_reannounce (cached batch : List Article) (u : String)
    (hu : u ∈ cachedUrls cached) (a : Article) (ha : a ∈ detect cached batch) :
    a.url ≠ u := by
  intro he
  exact ((mem_detect_iff cached batch a).mp ha).2 (he ▸ hu)

/-- Witness for C1: with `u1` cached, the batch `[artB, artA]` re-presents
`u1`, the detect output contains `artB`, and that output item's url is not
the cached `u1`. -/
theorem spec_c1_witness :
    "u1" ∈ cachedUrls [artA] ∧ artB ∈ detect [artA] [artB, artA] ∧
    artB.url ≠ "u1" :=
  ⟨by decide, by decide,
    spec_c1_no_reannounce [artA] [artB, artA] "u1" (by decide) artB (by decide)⟩

/-- C6 — Empty-extraction safety: running one per-category cycle of
`checkForNewArticles` (`src/index.js` lines 186-209) on an empty scraped
batch produces no updates and leaves the cached entries for the source
unchanged: no eviction, no clearing, no insertion, whatever the
notification outcome. -/
theorem spec_c6_empty_extraction (cached : List Article) (notifyOk : Bool) :
    checkCategory cached [] notifyOk = ([], cached) :=
  rfl

/-- C8 — Idempotence and order preservation of detect: the detect step of
`src/index.js` (lines 189-192) does not mutate the cache, so running it a
second time on the identical batch against the state left by the first run
returns the identical update list, and the output is a sublist of the
input batch (it preserves the batch's relative order). -/
theorem spec_c8_detect_idempotent (cached batch : List Article) :
    (detectStep cached batch).2 = cached ∧
    (detectStep (detectStep cached batch).2 batch).1 = (detectStep cached batch).1 ∧
    List.Sublist (detectStep cached batch).1 batch :=
  ⟨rfl, rfl, List.filter_sublist batch⟩

/-- C7 — Concrete scenario of spec §8.8, run on the pipeline of
`src/index.js` lines 189-201 with the slice bound instantiated at the
scenario's cap of 3 (the source hard-codes 100 at line 200; the algorithm
is otherwise unchanged).  From an empty store, batch `[A(u1), B(u2)]`
detects `[A, B]` and commits to `[A, B]`; then batch `[B(u2), C(u3), D(u4)]`
detects `[C, D]` with `B` excluded, and the second commit leaves exactly
the urls `u2, u3, u4` with `u1` evicted. -/
theorem spec_c7_scenario :
    (checkCategoryWith 3 [] [artA, artB] true).1 = [artA, artB] ∧
    (checkCategoryWith 3 [] [artA, artB] true).2 = [artA, artB] ∧
    (checkCategoryWith 3 (checkCategoryWith 3 [] [artA, artB] true).2
      [artB, artC, artD] true).1 = [artC, artD] ∧
    ((checkCategoryWith 3 (checkCategoryWith 3 [] [artA, artB] true).2
      [artB, artC, artD] true).2).map (fun a => a.url) = ["u2", "u3", "u4"] ∧
    "u1" ∉ ((checkCategoryWith 3 (checkCategoryWith 3 [] [artA, artB] true).2
      [artB, artC, artD] true).2).map (fun a => a.url) := by
  decide

theorem checkUpdatesStep_mono (x : String) (st : List String × List NewsItem)
    (a : NewsItem) (h : x ∈ st.1) : x ∈ (checkUpdatesStep st a).1 := by
  unfold checkUpdatesStep
  split
  · exact h
  · exact List.mem_append_left _ h

theorem checkUpdatesStep_key (st : List String × List NewsItem)
    (a : NewsItem) : newsKey a ∈ (checkUpdatesStep st a).1 := by
  unfold checkUpdatesStep
  split
  · next hc => simpa [List.elem_iff] using hc
  · exact List.mem_append_right _ (by simp)

theorem checkUpdates_mono (x : String) :
    ∀ (arts : List NewsItem) (st : List String × List NewsItem),
      x ∈ st.1 → x ∈ (arts.foldl checkUpdatesStep st).1 := by
  intro arts
  induction arts with
  | nil => intro st h; exact h
  | cons a rest ih =>
    intro st h
    simp only [List.foldl_cons]
    exact ih _ (checkUpdatesStep_mono x st a h)

theorem checkUpdates_key_mem (a : NewsItem) :
    ∀ (arts : List NewsItem) (st : List String × List NewsItem),
      a ∈ arts → newsKey a ∈ (arts.foldl checkUpdatesStep st).1 := by
  intro arts
  induction arts with
  | nil => intro st h; cases h
  | cons b rest ih =>
    intro st h
    rcases List.mem_cons.mp h with h | h
    · subst h
      simp only [List.foldl_cons]
      exact checkUpdates_mono _ _ _ (checkUpdatesStep_key st a)
    · simp only [List.foldl_cons]
      exact ih _ h

/-- C2 counterexample: in `src/index.js`, an item judged new whose
notification fails is NOT marked as seen.  With an empty cache and the
scraped batch `[artA]`, the detect step judges `artA` new, but when
`sendDiscordNotification` throws (`notifyOk = false`) the per-category
`catch` (line 205) skips the commit of line 200, so the resulting cache is
still empty and `artA`'s url was not committed. -/
theorem spec_c2_cex :
    (checkCategory [] [artA] false).1 = [artA] ∧
    (checkCategory [] [artA] false).2 = [] := by
  decide

/-- C2 as amended: in `src/index.js` (lines 186-207), items judged new are
committed to the cache only when the notification call completes without
throwing — a notification failure aborts the category's pass before the
commit, leaving the cache unchanged (so the items will be re-announced).
In the webhook variant `src/unnamed/part_002` (lines 85-95) the claim's
policy does hold: every scraped item's key is added to the seen set, the
add happening before the fire-and-forget notification regardless of
delivery outcome. -/
theorem spec_c2_notify_policy (cached scraped : List Article)
    (seen : List String) (arts : List NewsItem) (a : NewsItem)
    (h1 : (detect cached scraped).isEmpty = false) (h2 : a ∈ arts) :
    (checkCategory cached scraped false).2 = cached ∧
    (checkCategory cached scraped true).2 = commitCategory scraped cached ∧
    newsKey a ∈ (checkUpdates seen arts).1 := by
  refine ⟨?_, ?_, checkUpdates_key_mem a arts (seen, []) h2⟩
  · simp [checkCategory, checkCategoryWith, h1]
  · simp [checkCategory, checkCategoryWith, h1, commitCategory]

/-- Witness for C2: concrete evaluation of the amended statement with a
one-article batch and a one-item webhook batch. -/
theorem spec_c2_witness :
    (detect [] [artA]).isEmpty = false ∧ itemN1 ∈ [itemN1] ∧
    ((checkCategory [] [artA] false).2 = [] ∧
     (checkCategory [] [artA] true).2 = commitCategory [artA] [] ∧
     newsKey itemN1 ∈ (checkUpdates [] [itemN1]).1) :=
  ⟨by decide, by decide,
    spec_c2_notify_policy [] [artA] [] [itemN1] itemN1 (by decide) (by decide)⟩

/-- C3 counterexample: the code applies no url normalization.  `artX` and
`artXs` differ only by a trailing slash — url noise the spec's `normalize`
removes, so both would receive the same dedup key — yet with `artX`'s url
cached the detect filter of `src/index.js` still emits `artXs`: the code's
keys are the raw url strings, which differ. -/
theorem spec_c3_cex :
    normalizeSpec artX.url = normalizeSpec artXs.url ∧
    artX.url ≠ artXs.url ∧
    detect [artX] [artXs] = [artXs] := by
  decide

theorem checkUpdates_notified_key :
    ∀ (arts : List NewsItem) (st : List String × List NewsItem)
      (seen0 : List String),
      (∀ y ∈ st.2, newsKey y ∉ seen0) → seen0 ⊆ st.1 →
      ∀ b ∈ (arts.foldl checkUpdatesStep st).2, newsKey b ∉ seen0 := by
  intro arts
  induction arts with
  | nil => intro st seen0 hinv _ b hb; exact hinv b hb
  | cons a rest ih =>
    intro st seen0 hinv hsub b hb
    simp only [List.foldl_cons] at hb
    refine ih (checkUpdatesStep st a) seen0 ?_ ?_ b hb
    · unfold checkUpdatesStep
      split
      · exact hinv
      · next hc =>
        intro y hy
        rcases List.mem_append.mp hy with hy | hy
        · exact hinv y hy
        · have hya : y = a := by simpa using hy
          subst hya
          intro hkey
          exact hc (by simpa [List.elem_iff] using hsub hkey)
    · unfold checkUpdatesStep
      split
      · exact hsub
      · exact fun x hx => List.mem_append_left _ (hsub hx)

/-- C3 as amended: in `src/index.js` the dedup key is the raw extracted
url compared by exact string equality — no normalization is applied, so
urls differing only in tracking parameters, casing, or a trailing slash
yield distinct keys (an item is excluded exactly when its literal url
string is cached); items lacking a url are discarded by the scraper rather
than keyed.  In the webhook variant `src/unnamed/part_002` the key is
always `title + "-" + date` — title and date together, never title alone —
used even when a link is present: a notified item's title-date key was
unseen, an item repeating a notified title AND date is dropped even with a
different link, while a repeated title with a different date is kept. -/
theorem spec_c3_identity_key (cached batch : List Article) (x : Article)
    (seen : List String) (arts : List NewsItem) (b : NewsItem)
    (hb : b ∈ (checkUpdates seen arts).2) :
    (x ∈ detect cached batch ↔ x ∈ batch ∧ x.url ∉ cachedUrls cached) ∧
    newsKey b ∉ seen ∧
    (checkUpdates [] [itemN1, itemN2]).2 = [itemN1] ∧
    (checkUpdates [] [itemN1, itemN3]).2 = [itemN1, itemN3] := by
  refine ⟨mem_detect_iff cached batch x, ?_, by decide, by decide⟩
  exact checkUpdates_notified_key arts (seen, []) seen (by simp)
    (fun y hy => hy) b hb

/-- Witness for C3: concrete evaluation of the amended statement, with
`itemN1` notified against the seen set `["z"]`. -/
theorem spec_c3_witness :
    itemN1 ∈ (checkUpdates ["z"] [itemN1]).2 ∧
    ((artB ∈ detect [artA] [artB] ↔
        artB ∈ [artB] ∧ artB.url ∉ cachedUrls [artA]) ∧
     newsKey itemN1 ∉ ["z"] ∧
     (checkUpdates [] [itemN1, itemN2]).2 = [itemN1] ∧
     (checkUpdates [] [itemN1, itemN3]).2 = [itemN1, itemN3]) :=
  ⟨by decide,
    spec_c3_identity_key [artA] [artB] artB ["z"] [itemN1] itemN1 (by decide)⟩

/-- C4 counterexample: the detect filter of `src/index.js` line 192
performs no within-batch dedup.  A batch handed to it containing `artA`
twice (same url `u1`), checked against an empty cache, yields BOTH copies
in the new-item output — not exactly one. -/
theorem spec_c4_cex :
    (detect [] [artA, artA]).length = 2 ∧
    ((detect [] [artA, artA]).filter (fun x => x.url == artA.url)).length
      = 2 := by
  decide

theorem scrapeEval_inv :
    ∀ (elems : List RawItem) (st : List String × List Article),
      (∀ a ∈ st.2, a.url ∈ st.1) → ((st.2.map (fun a => a.url)).Nodup) →
      (∀ a ∈ (elems.foldl scrapeEvalStep st).2,
        a.url ∈ (elems.foldl scrapeEvalStep st).1) ∧
      (((elems.foldl scrapeEvalStep st).2.map (fun a => a.url)).Nodup) := by
  intro elems
  induction elems with
  | nil => intro st h1 h2; exact ⟨h1, h2⟩
  | cons el rest ih =>
    intro st h1 h2
    simp only [List.foldl_cons]
    by_cases hv : validTitleUrl st.1 el.title (absolutizeUrl el.href) = true
    · have hnotin : absolutizeUrl el.href ∉ st.1 := by
        have hv' := hv
        simp only [validTitleUrl, Bool.and_eq_true] at hv'
        have hc3 := hv'.1.1.1.1.2
        simp only [Bool.not_eq_true'] at hc3
        intro hmem
        have hc : st.1.contains (absolutizeUrl el.href) = true := by
          simp [List.contains, List.elem_iff, hmem]
        rw [hc] at hc3
        simp at hc3
      have hstep : scrapeEvalStep st el =
          (absolutizeUrl el.href :: st.1,
           st.2 ++ [{ title := el.title, url := absolutizeUrl el.href,
                      date := el.date,
                      categories := if el.categories.isEmpty
                        then ["Uncategorized"] else el.categories }]) := by
        simp [scrapeEvalStep, hv]
      rw [hstep]
      apply ih
      · intro a ha
        rcases List.mem_append.mp ha with ha | ha
        · exact List.mem_cons_of_mem _ (h1 a ha)
        · have : a.url = absolutizeUrl el.href := by
            simp at ha
            rw [ha]
          rw [this]
          exact List.mem_cons_self _ _
      · have hmapnot : absolutizeUrl el.href ∉ st.2.map (fun a => a.url) := by
          intro hmem
          rcases List.mem_map.mp hmem with ⟨a, ha, hurl⟩
          exact hnotin (hurl ▸ h1 a ha)
        simp [List.nodup_append, h2, hmapnot]
    · have hstep : scrapeEvalStep st el = st := by
        simp [scrapeEvalStep, hv]
      rw [hstep]
      exact ih st h1 h2

/-- C4 as amended: the detect step itself deduplicates nothing within a
batch (see the counterexample); within-batch uniqueness is instead
enforced by the extraction step of `src/index.js` (lines 95-136), whose
in-page `seenUrls` set skips any element repeating an already-collected
url.  Hence every batch produced by `scrapeArticles` has pairwise-distinct
urls, and the detect output for such a batch contains each url at most
once. -/
theorem spec_c4_within_batch (elems : List RawItem) (cached : List Article) :
    ((scrapeEval elems).map (fun a => a.url)).Nodup ∧
    ((detect cached (scrapeEval elems)).map (fun a => a.url)).Nodup := by
  have h := scrapeEval_inv elems ([], []) (by simp) (by simp)
  refine ⟨h.2, ?_⟩
  have hsub : List.Sublist (detect cached (scrapeEval elems))
      (scrapeEval elems) := List.filter_sublist _
  exact h.2.sublist (hsub.map (fun a => a.url))

theorem drop_le_take_of_sorted (ts : Article → Nat) (l : List Article)
    (n : Nat) (hs : l.Pairwise (fun a b => ts b ≤ ts a))
    (e k : Article) (he : e ∈ l.drop n) (hk : k ∈ l.take n) :
    ts e ≤ ts k := by
  have hs' : (l.take n ++ l.drop n).Pairwise (fun a b => ts b ≤ ts a) := by
    rw [List.take_append_drop]
    exact hs
  exact (List.pairwise_append.mp hs').2.2 k hk e he

/-- C5 counterexample: in `src/index.js` the evicted entries are NOT those
with the oldest `firstSeenAt`.  Three cycles of the per-category pass
(lines 186-207, cap 100): cycle 1 scrapes `[artO]` and first sees `artO`
(the oldest `firstSeenAt`); cycle 2 scrapes `[artO, artN]` and first sees
`artN` (a strictly newer `firstSeenAt`, with `artO` re-prepended by the
line-200 commit); cycle 3 scrapes `artO` together with 99 fresh articles,
the commit's combined list overflows the cap — more than 100 keys have
been inserted in total — and the store ends with exactly 100 entries in
which `artO`'s url (oldest `firstSeenAt`) is retained while `artN`'s url
(newer `firstSeenAt`) is the evicted key: eviction follows scrape recency,
not oldest `firstSeenAt`. -/
theorem spec_c5_cex :
    (checkCategory [] [artO] true).1 = [artO] ∧
    (checkCategory (checkCategory [] [artO] true).2 [artO, artN] true).1
      = [artN] ∧
    ((checkCategory
        (checkCategory (checkCategory [] [artO] true).2 [artO, artN] true).2
        (artO :: padArticles) true).2).length = 100 ∧
    artO.url ∈ ((checkCategory
        (checkCategory (checkCategory [] [artO] true).2 [artO, artN] true).2
        (artO :: padArticles) true).2).map (fun a => a.url) ∧
    artN.url ∉ ((checkCategory
        (checkCategory (checkCategory [] [artO] true).2 [artO, artN] true).2
        (artO :: padArticles) true).2).map (fun a => a.url) := by
  decide

/-- C5 as amended — Retention cap: a commit whose combined list holds at
least the cap of entries leaves exactly cap entries (100 at
`src/index.js` line 200, 50 at `src/unnamed/part_001` line 199), and
eviction drops the tail of the prepend-ordered list: kept and evicted
segments partition the combined list in order, so `src/index.js` — which
re-prepends the whole scraped batch — evicts the least-recently-scraped
entries, not the oldest-`firstSeenAt` ones (see the counterexample).
Only in `src/unnamed/part_001`, which prepends just the genuinely new
updates so the list stays ordered by `firstSeenAt` most-recent-first — an
order its commit itself preserves, as proved — are the evicted entries
exactly those with the oldest `firstSeenAt`: every evicted entry's
`firstSeenAt` is at most every kept entry's. -/
theorem spec_c5_retention_policy (scraped cached upd cached2 : List Article)
    (ts : Article → Nat)
    (h1 : 100 ≤ (scraped ++ cached).length)
    (h2 : 50 ≤ (upd ++ cached2).length)
    (hs2 : (upd ++ cached2).Pairwise (fun a b => ts b ≤ ts a))
    (e2 k2 : Article)
    (he2 : e2 ∈ (upd ++ cached2).drop 50)
    (hk2 : k2 ∈ commitCategoryMem upd cached2) :
    (commitCategory scraped cached).length = 100 ∧
    (commitCategoryMem upd cached2).length = 50 ∧
    commitCategory scraped cached ++ (scraped ++ cached).drop 100
      = scraped ++ cached ∧
    (commitCategoryMem upd cached2).Pairwise (fun a b => ts b ≤ ts a) ∧
    ts e2 ≤ ts k2 := by
  refine ⟨?_, ?_, ?_, ?_, ?_⟩
  · simp only [commitCategory, List.length_take]
    omega
  · simp only [commitCategoryMem, List.length_take]
    omega
  · exact List.take_append_drop 100 (scraped ++ cached)
  · exact hs2.sublist (List.take_sublist 50 (upd ++ cached2))
  · exact drop_le_take_of_sorted ts (upd ++ cached2) 50 hs2 e2 k2 he2 hk2

theorem pairwise_trivial_rel (l : List Article) :
    l.Pairwise (fun _ _ => (0 : Nat) ≤ 0) := by
  induction l with
  | nil => exact List.Pairwise.nil
  | cons h t ih => exact List.Pairwise.cons (fun _ _ => Nat.le_refl 0) ih

/-- Witness for C5 as amended: 101 copies of `artA` overflow the cap of
100, and 51 copies overflow the in-memory variant's cap of 50, with a
constant `firstSeenAt`. -/
theorem spec_c5_retention_policy_witness :
    100 ≤ (List.replicate 101 artA ++ ([] : List Article)).length ∧
    50 ≤ (List.replicate 51 artA ++ ([] : List Article)).length ∧
    ((commitCategory (List.replicate 101 artA) []).length = 100 ∧
     (commitCategoryMem (List.replicate 51 artA) []).length = 50 ∧
     commitCategory (List.replicate 101 artA) [] ++
       (List.replicate 101 artA ++ ([] : List Article)).drop 100
       = List.replicate 101 artA ++ ([] : List Article) ∧
     (commitCategoryMem (List.replicate 51 artA) []).Pairwise
       (fun _ _ => (0 : Nat) ≤ 0) ∧
     (0 : Nat) ≤ 0) := by
  have he2 : artA ∈ (List.replicate 51 artA ++ ([] : List Article)).drop 50 := by
    decide
  have hk2 : artA ∈ commitCategoryMem (List.replicate 51 artA) [] := by
    decide
  exact ⟨by simp, by simp,
    spec_c5_retention_policy (List.replicate 101 artA) []
      (List.replicate 51 artA) [] (fun _ => 0) (by simp) (by simp)
      (pairwise_trivial_rel _) artA artA he2 hk2⟩

theorem postArticleStep_le (s : List String) (t : String) :
    (postArticleStep s t).length ≤ 50 := by
  unfold postArticleStep trimTitles
  split
  · next h =>
    rw [List.length_drop]
    omega
  · next h =>
    omega

theorem filter_count_one {arts : List Article} {a : Article}
    (hcount : arts.count a = 1) (p : Article → Bool) :
    (arts.filter p).filter (fun x => x == a) = if p a then [a] else [] := by
  have h1 : (arts.filter p).filter (fun x => x == a)
      = (arts.filter (fun x => x == a)).filter p := by
    rw [List.filter_filter, List.filter_filter]
    exact List.filter_congr (fun x _ => Bool.and_comm _ _)
  rw [h1, List.filter_beq, hcount]
  by_cases hp : p a = true
  · simp [hp]
  · simp [List.filter, hp]

theorem eventsFor_filter (c : String) (cacheArts arts : List Article)
    (a : Article) (hcount : arts.count a = 1) :
    (((newForCategory c cacheArts arts).map (fun x => (c, x))).filter
        (fun e => e.2 == a)).map (fun e => e.1)
      = if (matchesCategory a c &&
            !((cacheArts.map (fun x => x.url)).contains a.url)) = true
        then [c] else [] := by
  rw [List.filter_map]
  have hcomp : ((fun e : String × Article => e.2 == a) ∘ fun x => (c, x))
      = fun x => x == a := rfl
  rw [hcomp, newForCategory, filter_count_one hcount]
  split
  · simp
  · simp

theorem nextCache_ne (c : String) (cacheF : String → List Article)
    (upd : List Article) (x : String) (hx : x ≠ c) :
    nextCache c cacheF upd x = cacheF x := by
  unfold nextCache
  split
  · rfl
  · simp [hx]

theorem processCats_cons (c : String) (rest : List String)
    (cacheF : String → List Article) (arts : List Article) :
    processCats (c :: rest) cacheF arts =
      ((newForCategory c (cacheF c) arts).map (fun a => (c, a)) ++
        (processCats rest
          (nextCache c cacheF (newForCategory c (cacheF c) arts)) arts).1,
       (processCats rest
          (nextCache c cacheF (newForCategory c (cacheF c) arts)) arts).2) :=
  rfl

/-- C9 — Per-source dedup with substring category matching: in the
single-page variants (`src/unnamed/part_003` lines 146-163,
`src/unnamed/part_004` lines 195-212), an article is assigned to a tracked
category whenever one of its labels contains that category name as a
substring, and the cache is scoped per category; for an article occurring
once in the batch, the categories under which it is emitted and notified
are exactly the tracked categories its labels substring-match and whose
cache does not hold its url — one notification per such category, with no
cross-category dedup. -/
theorem spec_c9_per_category (cats : List String)
    (cacheF : String → List Article) (arts : List Article) (a : Article)
    (hnd : cats.Nodup) (hcount : arts.count a = 1) :
    ((processCats cats cacheF arts).1.filter (fun e => e.2 == a)).map
        (fun e => e.1)
      = cats.filter (hitCategory cacheF a) := by
  induction cats generalizing cacheF with
  | nil => simp [processCats]
  | cons c rest ih =>
    obtain ⟨hc_notin, hnd'⟩ := List.nodup_cons.mp hnd
    rw [processCats_cons]
    simp only [List.filter_append, List.map_append]
    rw [eventsFor_filter c (cacheF c) arts a hcount]
    rw [ih (nextCache c cacheF (newForCategory c (cacheF c) arts)) hnd']
    have hagree : rest.filter
        (hitCategory (nextCache c cacheF (newForCategory c (cacheF c) arts)) a)
        = rest.filter (hitCategory cacheF a) := by
      apply List.filter_congr
      intro x hx
      have hxc : x ≠ c := fun hxc => hc_notin (hxc ▸ hx)
      unfold hitCategory
      rw [nextCache_ne c cacheF _ x hxc]
    rw [hagree, List.filter_cons]
    by_cases h : hitCategory cacheF a c = true
    · have h' : (matchesCategory a c &&
          !(((cacheF c).map (fun x => x.url)).contains a.url)) = true := h
      rw [if_pos h', if_pos h, List.singleton_append]
    · have h' : ¬(matchesCategory a c &&
          !(((cacheF c).map (fun x => x.url)).contains a.url)) = true := h
      rw [if_neg h', if_neg h, List.nil_append]

/-- Witness for C9: the article `artFS`, labelled `films-series`,
substring-matches both tracked categories `films` and `series` against an
empty cache, so one cycle emits and notifies it under both. -/
theorem spec_c9_witness :
    (["films", "series"] : List String).Nodup ∧
    ([artFS].count artFS = 1) ∧
    ((processCats ["films", "series"] (fun _ => []) [artFS]).1.filter
        (fun e => e.2 == artFS)).map (fun e => e.1)
      = (["films", "series"] : List String).filter
          (hitCategory (fun _ => []) artFS) :=
  ⟨by decide, by decide,
    spec_c9_per_category ["films", "series"] (fun _ => []) [artFS] artFS
      (by decide) (by decide)⟩

/-- C10 — Bounded title memory: in the webhook variants
(`src/unnamed/part_000` lines 112-119, `src/unnamed/part_006`
lines 156-163), after each posted article is processed the
`previousTitles` set holds at most 50 entries — the trim to the 50 most
recently inserted titles fires whenever the size exceeds 50 — so after any
batch with at least one posted article the in-memory seen-title state is
at most 50. -/
theorem spec_c10_bounded_titles (s : List String) (t : String)
    (s2 ts : List String) (t2 : String) :
    (postArticleStep s t).length ≤ 50 ∧
    (postTitles s2 (ts ++ [t2])).length ≤ 50 := by
  refine ⟨postArticleStep_le s t, ?_⟩
  unfold postTitles
  rw [List.foldl_append]
  simp only [List.foldl_cons, List.foldl_nil]
  exact postArticleStep_le _ _

end SWNews
